import Mathlib

/-!
Verification of the hand-gesture snake game (`src/Program/Snake.py`).

The game logic is shallowly embedded: grid cells are pairs of integers
(Python tuples of unbounded ints), the snake is a head-first list of cells,
and the `SnakeGame` attributes `snake`, `direction`, `food`, `score`,
`game_over` form the `GameState` structure (the spec's Game State component).
Randomness of `random.randint` is modelled by an explicit list of drawn
cells for `new_food`, and by an abstract spawn oracle (a function from the
current snake to a cell) where only the fact that a fresh food cell is
produced matters.
-/

namespace SnakeSpec

/-- A grid cell: a Python `(x, y)` tuple of ints. -/
abbrev Cell : Type := Int × Int

/-- `GRID_SIZE = 20` (pixels per cell). -/
def GRID_SIZE : Int := 20

/-- The cell is inside the grid: exactly the range contract of
`random.randint(0, GRID_WIDTH-1), random.randint(0, GRID_HEIGHT-1)`
and the complement of the boundary checks in `update`. -/
abbrev inGrid (W H : Int) (c : Cell) : Prop :=
  0 ≤ c.1 ∧ c.1 < W ∧ 0 ≤ c.2 ∧ c.2 < H

/-- The game state: the attributes assigned by `SnakeGame.reset`
(`snake`, `direction`, `food`, `score`, `game_over`). -/
structure GameState where
  snake : List Cell
  direction : Cell
  food : Cell
  score : Nat
  game_over : Bool
deriving DecidableEq

/-- `SnakeGame.new_food`: repeatedly draw a random cell until one is found
that is not in the snake.  The random draws are the explicit list `draws`;
`none` means the modelled draw sequence was exhausted without success
(the Python loop would keep drawing). -/
def new_food : List Cell → List Cell → Option Cell
  | [], _ => none
  | f :: rest, snake => if f ∈ snake then new_food rest snake else some f

/-- The collision condition of `SnakeGame.update`: the new head is in the
(pre-move) snake body, or outside the grid bounds. -/
abbrev collides (W H : Int) (snake : List Cell) (c : Cell) : Prop :=
  c ∈ snake ∨ c.1 < 0 ∨ W ≤ c.1 ∨ c.2 < 0 ∨ H ≤ c.2

/-- `SnakeGame.update(direction)`.  `spawn` is the food oracle standing for
`new_food` (its argument is the snake at the moment of the call, i.e. after
the head insertion, exactly as in the Python code).  On an empty snake the
Python code would raise `IndexError` on `self.snake[0]`; that case is
unreachable and modelled as a no-op. -/
def update (spawn : List Cell → Cell) (W H : Int) (g : GameState) (direction : Cell) :
    GameState :=
  if g.game_over then g
  else
    match g.snake with
    | [] => g
    | head :: _ =>
      let new_head : Cell := (head.1 + direction.1, head.2 + direction.2)
      if collides W H g.snake new_head then
        { g with game_over := true }
      else
        let snake1 := new_head :: g.snake
        if new_head = g.food then
          { g with snake := snake1, score := g.score + 1, food := spawn snake1 }
        else
          { g with snake := snake1.dropLast }

/-- `SnakeGame.reset`, as the Python code writes it: field assignments in
order, starting from the previous state `g`; `food` is drawn with the
freshly assigned singleton snake in scope. -/
def reset (spawn : List Cell → Cell) (W H : Int) (g : GameState) : GameState :=
  let g1 := { g with snake := [(W / 2, H / 2)] }
  let g2 := { g1 with direction := ((0 : Int), (0 : Int)) }
  let g3 := { g2 with food := spawn g2.snake }
  let g4 := { g3 with score := 0 }
  { g4 with game_over := false }

/-- The state produced by `SnakeGame.__init__` (which calls `reset`). -/
def initState (spawn : List Cell → Cell) (W H : Int) : GameState :=
  { snake := [(W / 2, H / 2)]
    direction := ((0 : Int), (0 : Int))
    food := spawn [(W / 2, H / 2)]
    score := 0
    game_over := false }

/-- The gesture classifier in `main` (lines 151–155): given the hand
displacement `(dx, dy)` since the previous frame, propose a candidate
direction when either axis moved more than 20 px; the candidate is
horizontal when `|dx| > |dy|`, else vertical, with the sign of the
displacement (`1 if dx > 0 else -1`). -/
def classify (dx dy : Int) : Option Cell :=
  if 20 < |dx| ∨ 20 < |dy| then
    some (if |dy| < |dx| then ((if 0 < dx then 1 else -1), 0)
          else (0, (if 0 < dy then 1 else -1)))
  else
    none

/-- The reversal filter in `main` (lines 157–159): the candidate is applied
unless it is the componentwise negation of the current direction. -/
def applyDir (current new_dir : Cell) : Cell :=
  if new_dir.1 ≠ -current.1 ∨ new_dir.2 ≠ -current.2 then new_dir else current

/-- One direction-update step of the main loop: classify the displacement
and, when a candidate is proposed, run it through the reversal filter. -/
def gestureStep (g : GameState) (dx dy : Int) : GameState :=
  match classify dx dy with
  | none => g
  | some c => { g with direction := applyDir g.direction c }

/-- The four cardinal unit vectors of the spec's direction data model. -/
def unitDirs : List Cell := [(1, 0), (-1, 0), (0, 1), (0, -1)]

/-- One observable step of the main loop on the game state: a game tick
(`game.update`, with an arbitrary direction argument, covering the loop's
`game.update(game.direction)`), a gesture that updates the direction, or a
reset (the `r` key). -/
inductive Step (spawn : List Cell → Cell) (W H : Int) : GameState → GameState → Prop
  | tick (g : GameState) (d : Cell) : Step spawn W H g (update spawn W H g d)
  | gesture (g : GameState) (dx dy : Int) : Step spawn W H g (gestureStep g dx dy)
  | reset (g : GameState) : Step spawn W H g (reset spawn W H g)

/-- States reachable from the initial state by main-loop steps. -/
inductive Reachable (spawn : List Cell → Cell) (W H : Int) : GameState → Prop
  | init : Reachable spawn W H (initState spawn W H)
  | step {g g' : GameState} : Reachable spawn W H g → Step spawn W H g g' →
      Reachable spawn W H g'

/-- A fixed spawn oracle used to build concrete witness states. -/
def spawn0 : List Cell → Cell := fun _ => (0, 0)

/-! ## Helper lemmas -/

/-- Reduction of `update` on a running state with a nonempty snake: exactly
the branch structure of the Python method. -/
theorem update_cons (spawn : List Cell → Cell) (W H : Int) (head : Cell)
    (rest : List Cell) (dir fd : Cell) (sc : Nat) (d : Cell) :
    update spawn W H ⟨head :: rest, dir, fd, sc, false⟩ d =
      if collides W H (head :: rest) (head.1 + d.1, head.2 + d.2) then
        ⟨head :: rest, dir, fd, sc, true⟩
      else if ((head.1 + d.1, head.2 + d.2) : Cell) = fd then
        ⟨(head.1 + d.1, head.2 + d.2) :: head :: rest, dir,
          spawn ((head.1 + d.1, head.2 + d.2) :: head :: rest), sc + 1, false⟩
      else
        ⟨((head.1 + d.1, head.2 + d.2) :: head :: rest).dropLast, dir, fd, sc, false⟩ :=
  rfl

/-- A food cell returned by `new_food` is outside the snake and was one of
the draws. -/
theorem new_food_spec : ∀ (draws snake : List Cell) (f : Cell),
    new_food draws snake = some f → f ∉ snake ∧ f ∈ draws
  | [], _, _, h => by simp [new_food] at h
  | d :: rest, snake, f, h => by
    simp only [new_food] at h
    by_cases hd : d ∈ snake
    · rw [if_pos hd] at h
      have hrec := new_food_spec rest snake f h
      exact ⟨hrec.1, List.mem_cons_of_mem d hrec.2⟩
    · rw [if_neg hd] at h
      cases h
      exact ⟨hd, List.mem_cons_self d rest⟩

/-- When every draw lands on the snake, `new_food` never returns. -/
theorem new_food_none : ∀ (draws snake : List Cell),
    (∀ c ∈ draws, c ∈ snake) → new_food draws snake = none
  | [], _, _ => rfl
  | d :: rest, snake, h => by
    simp only [new_food]
    rw [if_pos (h d (List.mem_cons_self d rest))]
    exact new_food_none rest snake (fun c hc => h c (List.mem_cons_of_mem d hc))

/-- `1 if x > 0 else -1` agrees with `Int.sign` away from zero. -/
theorem sign_ite {x : Int} (hx : x ≠ 0) :
    (if 0 < x then (1 : Int) else -1) = Int.sign x := by
  rcases lt_trichotomy x 0 with h | h | h
  · rw [if_neg (by omega), Int.sign_eq_neg_one_iff_neg.mpr h]
  · exact absurd h hx
  · rw [if_pos h, Int.sign_eq_one_iff_pos.mpr h]

/-- Every candidate the classifier proposes is a cardinal unit vector. -/
theorem classify_mem_unitDirs (dx dy : Int) (c : Cell) (h : classify dx dy = some c) :
    c ∈ unitDirs := by
  unfold classify at h
  by_cases hg : 20 < |dx| ∨ 20 < |dy|
  · rw [if_pos hg] at h
    cases h
    by_cases hd : |dy| < |dx|
    · rw [if_pos hd]
      by_cases hx : 0 < dx
      · rw [if_pos hx]; decide
      · rw [if_neg hx]; decide
    · rw [if_neg hd]
      by_cases hy : 0 < dy
      · rw [if_pos hy]; decide
      · rw [if_neg hy]; decide
  · rw [if_neg hg] at h
    exact Option.noConfusion h

/-- The reversal filter either applies the candidate or keeps the current
direction. -/
theorem applyDir_cases (cur nd : Cell) : applyDir cur nd = nd ∨ applyDir cur nd = cur := by
  unfold applyDir
  split
  · exact Or.inl rfl
  · exact Or.inr rfl

/-- `gestureStep` without a proposed candidate does nothing. -/
theorem gestureStep_none {g : GameState} {dx dy : Int} (h : classify dx dy = none) :
    gestureStep g dx dy = g := by
  unfold gestureStep
  rw [h]

/-- `gestureStep` with a proposed candidate runs it through the reversal
filter. -/
theorem gestureStep_some {g : GameState} {dx dy : Int} {c : Cell}
    (h : classify dx dy = some c) :
    gestureStep g dx dy = { g with direction := applyDir g.direction c } := by
  unfold gestureStep
  rw [h]

/-- `reset` produces exactly the initial state, whatever the previous
state. -/
theorem reset_eq_init (spawn : List Cell → Cell) (W H : Int) (g : GameState) :
    reset spawn W H g = initState spawn W H :=
  rfl

/-- `update` never writes the direction attribute (only `main` and `reset`
do). -/
theorem update_direction_eq (spawn : List Cell → Cell) (W H : Int) (g : GameState)
    (d : Cell) : (update spawn W H g d).direction = g.direction := by
  rcases g with ⟨snake, dir, fd, sc, go⟩
  cases go
  · rcases snake with _ | ⟨head, rest⟩
    · rfl
    · rw [update_cons]
      split
      · rfl
      · split <;> rfl
  · rfl

/-- `update` keeps the snake nonempty and without repeated cells. -/
theorem update_snake_inv (spawn : List Cell → Cell) (W H : Int) (g : GameState)
    (d : Cell) (hne : g.snake ≠ []) (hnd : g.snake.Nodup) :
    (update spawn W H g d).snake ≠ [] ∧ (update spawn W H g d).snake.Nodup := by
  rcases g with ⟨snake, dir, fd, sc, go⟩
  cases go
  · rcases snake with _ | ⟨head, rest⟩
    · exact ⟨hne, hnd⟩
    · rw [update_cons]
      by_cases hc : collides W H (head :: rest) (head.1 + d.1, head.2 + d.2)
      · rw [if_pos hc]
        exact ⟨List.cons_ne_nil head rest, hnd⟩
      · rw [if_neg hc]
        have hmem : ((head.1 + d.1, head.2 + d.2) : Cell) ∉ head :: rest :=
          fun hm => hc (Or.inl hm)
        have hnd2 : (((head.1 + d.1, head.2 + d.2) : Cell) :: head :: rest).Nodup :=
          List.nodup_cons.mpr ⟨hmem, hnd⟩
        by_cases hf : ((head.1 + d.1, head.2 + d.2) : Cell) = fd
        · rw [if_pos hf]
          exact ⟨List.cons_ne_nil _ _, hnd2⟩
        · rw [if_neg hf]
          refine ⟨?_, (List.dropLast_sublist _).nodup hnd2⟩
          rw [List.dropLast_cons₂]
          exact List.cons_ne_nil _ _
  · exact ⟨hne, hnd⟩

/-- The main-loop invariant: nonempty snake without repeated cells, and a
direction that is still the initial zero vector or a cardinal unit vector. -/
abbrev Inv (g : GameState) : Prop :=
  g.snake ≠ [] ∧ g.snake.Nodup ∧
    (g.direction = ((0 : Int), (0 : Int)) ∨ g.direction ∈ unitDirs)

/-- The initial state satisfies the invariant. -/
theorem inv_initState (spawn : List Cell → Cell) (W H : Int) :
    Inv (initState spawn W H) :=
  ⟨List.cons_ne_nil _ _, List.nodup_singleton _, Or.inl rfl⟩

/-- Every reachable state satisfies the invariant. -/
theorem reachable_inv (spawn : List Cell → Cell) (W H : Int) (g : GameState)
    (h : Reachable spawn W H g) : Inv g := by
  induction h with
  | init => exact inv_initState spawn W H
  | @step g2 g3 hr hstep ih =>
    cases hstep with
    | tick d =>
      refine ⟨(update_snake_inv spawn W H g2 d ih.1 ih.2.1).1,
        (update_snake_inv spawn W H g2 d ih.1 ih.2.1).2, ?_⟩
      rw [update_direction_eq]
      exact ih.2.2
    | gesture dx dy =>
      cases hcl : classify dx dy with
      | none =>
        rw [gestureStep_none hcl]
        exact ih
      | some c =>
        rw [gestureStep_some hcl]
        refine ⟨ih.1, ih.2.1, ?_⟩
        rcases applyDir_cases g2.direction c with ha | ha <;> rw [ha]
        · exact Or.inr (classify_mem_unitDirs dx dy c hcl)
        · exact ih.2.2
    | reset =>
      rw [reset_eq_init]
      exact inv_initState spawn W H

/-! ## Claim theorems -/

/-- C1: on a running state, `update` computes the new head `nh` as the head
cell plus the direction vector; if `nh` collides only `game_over` is set;
otherwise `nh` is prepended and either (food hit) the score goes up by
exactly one and food is respawned with the snake one cell longer, or (no
food) the tail cell is dropped and the snake length is unchanged. -/
theorem C1_update_tick (spawn : List Cell → Cell) (W H : Int) (head : Cell)
    (rest : List Cell) (dir fd : Cell) (sc : Nat) (d nh : Cell)
    (hnh : nh = (head.1 + d.1, head.2 + d.2)) :
    (collides W H (head :: rest) nh →
      update spawn W H ⟨head :: rest, dir, fd, sc, false⟩ d =
        ⟨head :: rest, dir, fd, sc, true⟩) ∧
    (¬ collides W H (head :: rest) nh → nh = fd →
      update spawn W H ⟨head :: rest, dir, fd, sc, false⟩ d =
        ⟨nh :: head :: rest, dir, spawn (nh :: head :: rest), sc + 1, false⟩ ∧
      (update spawn W H ⟨head :: rest, dir, fd, sc, false⟩ d).snake.length =
        (head :: rest).length + 1) ∧
    (¬ collides W H (head :: rest) nh → nh ≠ fd →
      update spawn W H ⟨head :: rest, dir, fd, sc, false⟩ d =
        ⟨(nh :: head :: rest).dropLast, dir, fd, sc, false⟩ ∧
      (update spawn W H ⟨head :: rest, dir, fd, sc, false⟩ d).snake.length =
        (head :: rest).length) := by
  subst hnh
  refine ⟨fun hc => ?_, fun hc hf => ?_, fun hc hf => ?_⟩
  · rw [update_cons, if_pos hc]
  · rw [update_cons, if_neg hc, if_pos hf]
    exact ⟨rfl, rfl⟩
  · rw [update_cons, if_neg hc, if_neg hf]
    refine ⟨rfl, ?_⟩
    rw [List.dropLast_cons₂]
    simp

/-- C1 witness: a concrete non-colliding, non-food tick from a one-cell
snake at (5,5) moving right on a 32×24 grid. -/
theorem C1_update_tick_witness :
    (collides 32 24 [((5 : Int), (5 : Int))] ((6 : Int), (5 : Int)) →
      update spawn0 32 24 ⟨[(5, 5)], (0, 0), (9, 9), 0, false⟩ (1, 0) =
        ⟨[(5, 5)], (0, 0), (9, 9), 0, true⟩) ∧
    (¬ collides 32 24 [((5 : Int), (5 : Int))] ((6 : Int), (5 : Int)) →
      ((6 : Int), (5 : Int)) = ((9 : Int), (9 : Int)) →
      update spawn0 32 24 ⟨[(5, 5)], (0, 0), (9, 9), 0, false⟩ (1, 0) =
        ⟨[(6, 5), (5, 5)], (0, 0), spawn0 [(6, 5), (5, 5)], 1, false⟩ ∧
      (update spawn0 32 24 ⟨[(5, 5)], (0, 0), (9, 9), 0, false⟩ (1, 0)).snake.length =
        [((5 : Int), (5 : Int))].length + 1) ∧
    (¬ collides 32 24 [((5 : Int), (5 : Int))] ((6 : Int), (5 : Int)) →
      ((6 : Int), (5 : Int)) ≠ ((9 : Int), (9 : Int)) →
      update spawn0 32 24 ⟨[(5, 5)], (0, 0), (9, 9), 0, false⟩ (1, 0) =
        ⟨([((6 : Int), (5 : Int)), (5, 5)] : List Cell).dropLast, (0, 0), (9, 9), 0, false⟩ ∧
      (update spawn0 32 24 ⟨[(5, 5)], (0, 0), (9, 9), 0, false⟩ (1, 0)).snake.length =
        [((5 : Int), (5 : Int))].length) :=
  C1_update_tick spawn0 32 24 (5, 5) [] (0, 0) (9, 9) 0 (1, 0) (6, 5) rfl

/-- C2: in every reachable state with `game_over` false, the snake body has
pairwise distinct cells. -/
theorem C2_snake_cells_distinct (spawn : List Cell → Cell) (W H : Int)
    (g : GameState) (h : Reachable spawn W H g) (_hrun : g.game_over = false) :
    g.snake.Nodup :=
  (reachable_inv spawn W H g h).2.1

/-- C2 witness: the initial state on a 32×24 grid. -/
theorem C2_snake_cells_distinct_witness : (initState spawn0 32 24).snake.Nodup :=
  C2_snake_cells_distinct spawn0 32 24 (initState spawn0 32 24) Reachable.init rfl

/-- C3: whenever `new_food` returns a cell from in-grid draws, that cell is
in-grid and not occupied by any cell of the snake body. -/
theorem C3_new_food_not_on_snake (W H : Int) (draws snake : List Cell) (f : Cell)
    (hdraws : ∀ c ∈ draws, inGrid W H c) (hf : new_food draws snake = some f) :
    f ∉ snake ∧ inGrid W H f :=
  ⟨(new_food_spec draws snake f hf).1, hdraws f (new_food_spec draws snake f hf).2⟩

/-- C3 witness: the first draw (0,0) is occupied, the second draw (1,0) is
returned, is free and is in-grid. -/
theorem C3_new_food_not_on_snake_witness :
    ((1 : Int), (0 : Int)) ∉ ([((0 : Int), (0 : Int))] : List Cell) ∧
      inGrid 32 24 ((1 : Int), (0 : Int)) :=
  C3_new_food_not_on_snake 32 24 [(0, 0), (1, 0)] [(0, 0)] (1, 0)
    (by decide) (by decide)

/-- C4: `reset` from any state rebuilds exactly the initial state: singleton
center-cell snake, cleared direction, freshly spawned food, zero score and
`game_over` false — no game-state component survives the reset. -/
theorem C4_reset_clears_state (spawn : List Cell → Cell) (W H : Int) (g : GameState) :
    reset spawn W H g = initState spawn W H ∧
    (reset spawn W H g).game_over = false ∧
    (reset spawn W H g).snake = [(W / 2, H / 2)] ∧
    (reset spawn W H g).direction = (0, 0) ∧
    (reset spawn W H g).food = spawn [(W / 2, H / 2)] ∧
    (reset spawn W H g).score = 0 :=
  ⟨reset_eq_init spawn W H g, rfl, rfl, rfl, rfl, rfl⟩

/-- C5 counterexample: the initial state is reachable and its direction
(0,0) is not one of the four cardinal unit vectors. -/
theorem C5_direction_counterexample :
    Reachable spawn0 32 24 (initState spawn0 32 24) ∧
      (initState spawn0 32 24).direction ∉ unitDirs :=
  ⟨Reachable.init, by decide⟩

/-- C5 (amended): in every reachable state the direction is the zero vector
(as initialised by `reset`) or one of the four cardinal unit vectors. -/
theorem C5_direction_zero_or_unit (spawn : List Cell → Cell) (W H : Int)
    (g : GameState) (h : Reachable spawn W H g) :
    g.direction = (0, 0) ∨ g.direction ∈ unitDirs :=
  (reachable_inv spawn W H g h).2.2

/-- C5 witness: the initial state on a 32×24 grid. -/
theorem C5_direction_zero_or_unit_witness :
    (initState spawn0 32 24).direction = (0, 0) ∨
      (initState spawn0 32 24).direction ∈ unitDirs :=
  C5_direction_zero_or_unit spawn0 32 24 (initState spawn0 32 24) Reachable.init

/-- C6: a classifier candidate that is the componentwise negation of the
current direction is never applied (here even without the snake-length
hypothesis, which the code does not test): the direction-update step leaves
the direction unchanged. -/
theorem C6_reversal_rejected (g : GameState) (dx dy : Int) (c : Cell)
    (_hlen : 1 < g.snake.length) (hc : classify dx dy = some c)
    (hrev : c = (-g.direction.1, -g.direction.2)) :
    (gestureStep g dx dy).direction = g.direction := by
  rw [gestureStep_some hc, hrev]
  show applyDir g.direction (-g.direction.1, -g.direction.2) = g.direction
  unfold applyDir
  simp

/-- C6 witness: a two-cell snake heading right, with a hand displacement of
25 px to the left proposing the reverse candidate (-1,0): rejected. -/
theorem C6_reversal_rejected_witness :
    (gestureStep ⟨[((5 : Int), (5 : Int)), (4, 5)], (1, 0), (9, 9), 0, false⟩
        (-25) 0).direction = ((1 : Int), (0 : Int)) :=
  C6_reversal_rejected ⟨[(5, 5), (4, 5)], (1, 0), (9, 9), 0, false⟩ (-25) 0 (-1, 0)
    (by decide) (by decide) (by decide)

/-- C7: while `game_over` is set, `update` is a no-op for every direction
argument: snake, direction, food, score and the flag are all unchanged. -/
theorem C7_update_noop_on_game_over (spawn : List Cell → Cell) (W H : Int)
    (snake : List Cell) (dir fd : Cell) (sc : Nat) (d : Cell) :
    update spawn W H ⟨snake, dir, fd, sc, true⟩ d = ⟨snake, dir, fd, sc, true⟩ :=
  rfl

/-- C8: the gesture classifier proposes a candidate exactly when the
displacement magnitude on the dominant axis exceeds 20 px, and the candidate
is the unit vector along the dominant axis (horizontal when `|dx| > |dy|`,
else vertical) signed by the displacement on that axis. -/
theorem C8_classifier_spec (dx dy : Int) :
    classify dx dy =
      if 20 < max |dx| |dy| then
        some (if |dy| < |dx| then ((Int.sign dx, 0) : Cell) else (0, Int.sign dy))
      else none := by
  unfold classify
  by_cases hg : 20 < |dx| ∨ 20 < |dy|
  · rw [if_pos hg, if_pos (lt_max_iff.mpr hg)]
    by_cases hd : |dy| < |dx|
    · rw [if_pos hd, if_pos hd]
      have hdx : dx ≠ 0 := by
        intro h0
        rw [h0, abs_zero] at hd
        exact absurd hd (not_lt.mpr (abs_nonneg dy))
      rw [sign_ite hdx]
    · rw [if_neg hd, if_neg hd]
      have hdy20 : (20 : Int) < |dy| := by
        rcases hg with h | h
        · exact lt_of_lt_of_le h (not_lt.mp hd)
        · exact h
      have hdy : dy ≠ 0 := by
        intro h0
        rw [h0, abs_zero] at hdy20
        exact absurd hdy20 (by decide)
      rw [sign_ite hdy]
  · have hmax : ¬ (20 : Int) < max |dx| |dy| := by
      rw [lt_max_iff]
      exact hg
    rw [if_neg hg, if_neg hmax]

/-- C9: the collision test checks the new head against the entire pre-move
body (the current head included, when the direction is the zero vector, and
the to-be-vacated tail included): membership alone sets `game_over` and
leaves snake, direction, food and score unchanged. -/
theorem C9_collision_includes_whole_body (spawn : List Cell → Cell) (W H : Int)
    (head : Cell) (rest : List Cell) (dir fd : Cell) (sc : Nat) (d : Cell)
    (hmem : ((head.1 + d.1, head.2 + d.2) : Cell) ∈ head :: rest) :
    update spawn W H ⟨head :: rest, dir, fd, sc, false⟩ d =
      ⟨head :: rest, dir, fd, sc, true⟩ := by
  rw [update_cons, if_pos (Or.inl hmem)]

/-- C9 witness: a tick from the freshly initialised game with the initial
zero direction immediately sets `game_over`. -/
theorem C9_collision_includes_whole_body_witness :
    update spawn0 32 24 (initState spawn0 32 24) (0, 0) =
      ⟨[((16 : Int), (12 : Int))], (0, 0), (0, 0), 0, true⟩ :=
  C9_collision_includes_whole_body spawn0 32 24 (16, 12) [] (0, 0) (0, 0) 0 (0, 0)
    (by decide)

/-- C10: the `new_food` rejection loop can terminate whenever some in-grid
cell is unoccupied — a draw sequence hitting that cell (which `randint`
produces with positive probability) makes it return, and the returned cell
is inside the grid bounds; if the snake occupied every in-grid cell, no
in-grid draw sequence would ever make the loop return. -/
theorem C10_new_food_loop (W H : Int) (snake : List Cell) :
    (∀ c : Cell, inGrid W H c → c ∉ snake →
      ∃ draws : List Cell, (∀ d ∈ draws, inGrid W H d) ∧
        ∃ f : Cell, new_food draws snake = some f ∧ inGrid W H f) ∧
    (∀ draws : List Cell, (∀ d ∈ draws, inGrid W H d) →
      (∀ c : Cell, inGrid W H c → c ∈ snake) →
      new_food draws snake = none) := by
  constructor
  · intro c hc hcs
    refine ⟨[c], ?_, c, ?_, hc⟩
    · intro e he
      rw [List.mem_singleton] at he
      subst he
      exact hc
    · simp [new_food, hcs]
  · intro draws hdraws hall
    exact new_food_none draws snake (fun c hc => hall c (hdraws c hc))

end SnakeSpec
